import Mathlib

/-!
Verification of the PowerPulse energy dashboard derivation layer.

This file gives a shallow embedding, in Lean, of the parts of the
repository that the specification claims talk about:

* `hourFromTime`, `hourLabel`, `loadDailyUsageByHour` from the
  hourly-usage loader (src/unnamed/part_011);
* the CSV row shaping of the energy GET route
  (src/frontend/app/api/coach-chat/route.ts, second document);
* `getDevices` and its device-status classification
  (src/frontend/lib variant in src/unnamed/part_009 and part_010);
* the coaching-context builders: the `/chat/energy-coach` payload of
  src/unnamed/part_005 and the `/coach/chat` payload of
  src/frontend/components/coach-section.tsx, together with the chat
  fallback-reply handling both files share.

JavaScript numbers are idealised as exact rationals plus explicit
non-finite values (`JSNum`); binary floating point rounding is not
modelled, but the decimal rounding the code performs (`toFixed(3)`)
is modelled exactly.  String primitives of the JS runtime (`split`,
`trim`, `Number`, `padStart`) are modelled as character-list
functions so that every definition evaluates inside the kernel.
-/

/-- Model of a JavaScript number: a finite value (idealised as an exact
rational) or one of the non-finite values NaN, Infinity, -Infinity. -/
inductive JSNum where
  | fin (q : ℚ)
  | nan
  | inf
  | negInf
deriving DecidableEq, Repr

namespace JSNum

/-- Model of the JS test `Number.isFinite x`. -/
def isFin : JSNum → Bool
  | .fin _ => true
  | _ => false

/-- Value of `Number.isFinite(x) ? x : 0` as used at part_011 line 45:
the finite value itself, and `0` for NaN and the infinities. -/
def finOr0 : JSNum → ℚ
  | .fin q => q
  | _ => 0

/-- Model of the JS expression `x || 0`: NaN, `0` and `-0` are falsy and
give `0`; every other number is kept (the rational idealisation has a
single zero, so the `-0` case collapses into the `0` case). -/
def orZero : JSNum → JSNum
  | .nan => .fin 0
  | .fin q => .fin q
  | x => x

/-- Model of `Math.max c x` for a finite constant `c`. -/
def jsMax (c : ℚ) : JSNum → JSNum
  | .nan => .nan
  | .inf => .inf
  | .negInf => .fin c
  | .fin q => .fin (max c q)

/-- Model of `Math.min c x` for a finite constant `c`. -/
def jsMin (c : ℚ) : JSNum → JSNum
  | .nan => .nan
  | .inf => .fin c
  | .negInf => .negInf
  | .fin q => .fin (min c q)

/-- Model of the JS comparison `x <= c` for a finite constant `c`:
false when `x` is NaN or Infinity, true when `x` is -Infinity. -/
def jsLe (x : JSNum) (c : ℚ) : Bool :=
  match x with
  | .fin q => decide (q ≤ c)
  | .negInf => true
  | _ => false

end JSNum

/-- Whitespace trim on both ends of a character list; model of the
whitespace handling of JS `Number(s)` and of `String.prototype.trim`. -/
def trimWs (cs : List Char) : List Char :=
  ((cs.dropWhile Char.isWhitespace).reverse.dropWhile Char.isWhitespace).reverse

/-- Model of JS `s.trim()`. -/
def jsTrimStr (s : String) : String :=
  ⟨trimWs s.toList⟩

/-- Digits of a decimal numeral folded into a natural number. -/
def digitsToNat (cs : List Char) : ℕ :=
  cs.foldl (fun a c => a * 10 + (c.toNat - 48)) 0

/-- Unsigned decimal literal: either all digits, or digits on both sides
of a single dot with at least one digit overall (JS accepts "5.", ".5"). -/
def parseUnsignedDec (cs : List Char) : Option ℚ :=
  let p := cs.span (fun c => c ≠ '.')
  match p.2 with
  | [] => if cs ≠ [] ∧ cs.all Char.isDigit then some (digitsToNat cs) else none
  | _ :: frac =>
    if p.1.all Char.isDigit ∧ frac.all Char.isDigit ∧ (p.1 ≠ [] ∨ frac ≠ []) then
      some ((digitsToNat p.1 : ℚ) + (digitsToNat frac : ℚ) / (10 ^ frac.length))
    else none

/-- Model of the JS builtin `Number(s)` on strings: surrounding
whitespace is trimmed, the empty string is `0`, an optional sign is
followed by `Infinity` or by a plain decimal literal, and anything else
is NaN.  Exponent forms and radix-prefixed literals (hex, octal,
binary), which no claim touches, are not modelled and fall to NaN. -/
def jsNumber (s : String) : JSNum :=
  let cs := trimWs s.toList
  if cs = [] then .fin 0
  else
    let sgn : Bool × List Char :=
      match cs with
      | '-' :: r => (true, r)
      | '+' :: r => (false, r)
      | r => (false, r)
    if sgn.2 = "Infinity".toList then (if sgn.1 then .negInf else .inf)
    else
      match parseUnsignedDec sgn.2 with
      | some q => .fin (if sgn.1 then -q else q)
      | none => .nan

/-- Rounding of a nonnegative value to 3 decimal places, half up — the
rounding JS `toFixed(3)` applies after taking the absolute value. -/
def round3half (q : ℚ) : ℚ :=
  (Int.floor (q * 1000 + 1/2) : ℚ) / 1000

/-- Model of the JS expression `+v.toFixed(3)` on a finite number:
`toFixed` formats `|v|` rounded half-up to 3 decimals and prepends the
sign, and the unary plus reads the decimal string back. -/
def jsToFixed3 (q : ℚ) : ℚ :=
  if q < 0 then -(round3half (-q)) else round3half q

/-! ## Hourly usage loader (src/unnamed/part_011) -/

/-- Row shape consumed by the hourly loader (`ApiRow` in part_011):
the JSON rows of the energy GET route.  `kwh` is a runtime JS number
and may be non-finite (the route shaping produces NaN for a
non-numeric CSV cell), which line 45 of part_011 guards against. -/
structure ApiRow where
  homeId : String
  date : String
  time : String
  kwh : JSNum
deriving DecidableEq, Repr

/-- Model of `t.split(":")[0]`: the characters before the first colon. -/
def beforeColon (t : String) : String :=
  ⟨t.toList.takeWhile (fun c => c ≠ ':')⟩

/-- Embedding of `hourFromTime` (part_011 lines 10-15):
`Math.min(23, Math.max(0, Number(t.split(":")[0]) || 0))`.  The result
is always a finite value in `[0, 23]`, but can be fractional (for
example for the time string "6.5:00"). -/
def hourFromTime (t : String) : JSNum :=
  JSNum.jsMin 23 (JSNum.jsMax 0 (JSNum.orZero (jsNumber (beforeColon t))))

/-- Decimal rendering of a natural number below 100, the range of the
hour indices; model of JS `String(h)` there. -/
def natToDec (n : ℕ) : String :=
  if n < 10 then ⟨[Char.ofNat (48 + n)]⟩
  else ⟨[Char.ofNat (48 + n / 10), Char.ofNat (48 + n % 10)]⟩

/-- Embedding of `hourLabel` (part_011 lines 17-19):
`String(h).padStart(2, "0") + ":00"` for the hour indices `0..23`. -/
def hourLabel (h : ℕ) : String :=
  (if h < 10 then "0" ++ natToDec h else natToDec h) ++ ":00"

/-- One point of the returned hourly series. -/
structure HourPoint where
  time : String
  kwh : ℚ
deriving DecidableEq, Repr

/-- Index of the bucket a computed hour value writes to.  The JS
statement `sums[h] += x` changes an element the final `sums.map` sees
exactly when `h` is an integer index `0..23` of the 24-element array;
a fractional `h` writes a stray object property the map never reads. -/
def bucketIndex? (h : JSNum) : Option ℕ :=
  match h with
  | .fin q => if (Int.floor q : ℚ) = q ∧ 0 ≤ q ∧ q ≤ 23 then some (Int.floor q).toNat else none
  | _ => none

/-- Bucket, if any, that a row is added to (part_011 line 44). -/
def rowBucket (r : ApiRow) : Option ℕ :=
  bucketIndex? (hourFromTime r.time)

/-- One iteration of the bucketing loop (part_011 lines 43-46):
`sums[h] += Number.isFinite(r.kwh) ? r.kwh : 0`. -/
def applyRow (sums : List ℚ) (r : ApiRow) : List ℚ :=
  match rowBucket r with
  | some i => sums.set i (sums.getD i 0 + JSNum.finOr0 r.kwh)
  | none => sums

/-- Model of `sums.map((v, h) => f h v)`: map with the element index. -/
def mapWithIndex (f : ℕ → ℚ → HourPoint) : ℕ → List ℚ → List HourPoint
  | _, [] => []
  | i, v :: vs => f i v :: mapWithIndex f (i + 1) vs

/-- Embedding of `loadDailyUsageByHour` (part_011 lines 21-50) given the
fetched rows and a target date.  The date-defaulting step (lines 29-36,
exercised only when no date argument is passed: it picks the latest
date occurring in the file) is outside every claim and is not modelled;
every claim speaks of an explicitly given date.  An empty fetch returns
the all-zero series early (line 26); otherwise the rows of the target
date are bucketed by hour and each bucket is returned with
`+v.toFixed(3)` applied (line 49). -/
def loadDailyUsageByHour (all : List ApiRow) (targetDate : String) : List HourPoint :=
  if all.isEmpty then
    (List.range 24).map (fun h => ⟨hourLabel h, 0⟩)
  else
    let rows := all.filter (fun r => r.date == targetDate)
    let sums := rows.foldl applyRow (List.replicate 24 (0 : ℚ))
    mapWithIndex (fun h v => ⟨hourLabel h, jsToFixed3 v⟩) 0 sums

/-- Sum of the guarded kwh of the rows that land in bucket `h`. -/
def rowsBucketSum (rows : List ApiRow) (h : ℕ) : ℚ :=
  ((rows.filter (fun r => rowBucket r = some h)).map (fun r => JSNum.finOr0 r.kwh)).sum

/-- Sum of the (finite-guarded) kwh of the rows of a date that fall in
bucket `h` — the reference value the hourly series is compared against. -/
def bucketSum (all : List ApiRow) (d : String) (h : ℕ) : ℚ :=
  rowsBucketSum (all.filter (fun r => r.date == d)) h

/-- Modelled from the spec: the backend today-stats computation
(`today_usage_kwh`) is not under src/ (only its fetchers in lib/api.ts
are); per the spec it is the sum of the kwh of all of that home's
readings for the date, with non-numeric kwh normalised to 0. -/
def todayUsageKwh (all : List ApiRow) (d : String) : ℚ :=
  ((all.filter (fun r => r.date == d)).map (fun r => JSNum.finOr0 r.kwh)).sum

/-! ## Device list and status classifier (src/unnamed/part_009 lines
281-310, identical in part_010 lines 91-120) -/

/-- Status values of `DeviceStatus` in lib/api.ts. -/
inductive DeviceStatus where
  | online
  | offline
  | unknown
deriving DecidableEq, Repr

/-- Source values of `DeviceSource` in lib/api.ts. -/
inductive DeviceSource where
  | app
  | plug
deriving DecidableEq, Repr

/-- Raw backend device record as `getDevices` reads it (`d : any`).
`is_online` is `some b` exactly when `typeof d.is_online` is boolean;
`last_seen_iso` is `some s` when the field holds a string (the code then
treats the empty string as falsy); `source` and `last_kwh` are the
optional provenance string and the optional last kWh number. -/
structure RawDevice where
  appliance_type : String
  is_online : Option Bool
  last_seen_iso : Option String
  source : Option String
  last_kwh : Option JSNum
deriving DecidableEq, Repr

/-- Output record shape (`Device` in lib/api.ts). -/
structure Device where
  name : String
  powerLabel : String
  status : DeviceStatus
  source : DeviceSource
  lastSeen : Option String
deriving DecidableEq, Repr

/-- Model of `d.last_seen_iso || undefined`: a missing value and the
empty string (the only falsy string) both become `undefined`. -/
def lastSeenOf (d : RawDevice) : Option String :=
  match d.last_seen_iso with
  | some s => if s = "" then none else some s
  | none => none

/-- Model of
`lastSeen ? (now - new Date(lastSeen).getTime()) / 36e5 : Infinity`.
`parseDate` stands for the runtime `new Date(s).getTime()` (epoch
milliseconds, `none` when the date string is invalid, in which case
`getTime()` is NaN and the arithmetic stays NaN). -/
def hoursSinceOf (parseDate : String → Option ℚ) (now : ℚ) (lastSeen : Option String) : JSNum :=
  match lastSeen with
  | none => .inf
  | some s =>
    match parseDate s with
    | some t => .fin ((now - t) / 3600000)
    | none => .nan

/-- Status expression of `getDevices` (part_009 lines 291-300): an
explicit boolean `is_online` decides alone; otherwise
`hoursSince <= 24` gives online, else `hoursSince <= 72` unknown,
else offline. -/
def classifyDevice (is_online : Option Bool) (hoursSince : JSNum) : DeviceStatus :=
  match is_online with
  | some b => if b then .online else .offline
  | none =>
    if hoursSince.jsLe 24 then .online
    else if hoursSince.jsLe 72 then .unknown
    else .offline

/-- Three-digit zero padding of `n % 1000` for the fraction part. -/
def natTo3Digits (n : ℕ) : String :=
  if n < 10 then "00" ++ natToDec n
  else if n < 100 then "0" ++ natToDec n
  else natToDec (n / 100) ++ natToDec (n % 100)

/-- Decimal rendering of a natural number (recursion on the quotient). -/
def natDecFull : ℕ → String
  | 0 => "0"
  | n + 1 =>
    if h : n + 1 < 100 then natToDec (n + 1)
    else natDecFull ((n + 1) / 100) ++ natToDec ((n + 1) % 100)
decreasing_by
  exact Nat.div_lt_self (Nat.succ_pos n) (by norm_num)

/-- Model of JS `v.toFixed(3)` as a string for a finite value: sign of
the value, then `|v|` rounded half-up to three decimals. -/
def toFixed3String (q : ℚ) : String :=
  let m := (Int.floor (|q| * 1000 + 1/2)).toNat
  (if q < 0 then "-" else "") ++ natDecFull (m / 1000) ++ "." ++ natTo3Digits (m % 1000)

/-- Model of the `powerLabel` expression of `getDevices`:
`typeof d.last_kwh === "number" && !Number.isNaN(d.last_kwh)` guards a
`toFixed(3) + " kWh"` rendering, with an em-dash fallback (JS renders
the infinities as "Infinity"/"-Infinity" under `toFixed`). -/
def powerLabelOf (last_kwh : Option JSNum) : String :=
  match last_kwh with
  | some (.fin q) => toFixed3String q ++ " kWh"
  | some .inf => "Infinity kWh"
  | some .negInf => "-Infinity kWh"
  | _ => "—"

/-- Mapping of one raw record to a `Device` (part_009 lines 287-309). -/
def deviceOf (parseDate : String → Option ℚ) (now : ℚ) (d : RawDevice) : Device :=
  let lastSeen := lastSeenOf d
  let hoursSince := hoursSinceOf parseDate now lastSeen
  { name := d.appliance_type
    powerLabel := powerLabelOf d.last_kwh
    status := classifyDevice d.is_online hoursSince
    source := if d.source == some "plug" then .plug else .app
    lastSeen := lastSeen }

/-- Embedding of `getDevices` (part_009 lines 281-310) applied to the
decoded JSON: `(json.devices || []).map(...)`, with `parseDate` and
`now` standing for the runtime clock and date parser. -/
def getDevices (parseDate : String → Option ℚ) (now : ℚ)
    (devices : Option (List RawDevice)) : List Device :=
  (devices.getD []).map (deviceOf parseDate now)

/-! ## Energy GET route row shaping
(src/frontend/app/api/coach-chat/route.ts, second document, lines
60-89 of the concatenated file) -/

/-- One parsed CSV row as d3-dsv produces it: a record assigning an
optional string to each column name. -/
def CsvRow : Type := List (String × String)

/-- Lookup of a column value; `none` models the `undefined` a missing
column yields. -/
def getCell (r : CsvRow) (name : String) : Option String :=
  (List.find? (fun p => p.1 == name) r).map (fun p => p.2)

/-- Model of `String(x ?? "")` on an optional string cell. -/
def cellStr (v : Option String) : String :=
  v.getD ""

/-- Model of `Number(x ?? 0)` on an optional string cell: a missing cell
is `Number(0) = 0`, a present cell is parsed by `Number`. -/
def cellNum (v : Option String) : JSNum :=
  match v with
  | none => .fin 0
  | some s => jsNumber s

/-- Canonical record produced by the route shaping (`shaped`). -/
structure EnergyRow where
  homeId : String
  date : String
  time : String
  appliance : String
  kwh : JSNum
  tou : String
  tariff : JSNum
  outC : JSNum
  inC : JSNum
deriving DecidableEq, Repr

/-- Embedding of the row shaping (route.ts `shaped`, lines 69-79):
string cells default to the empty string and are trimmed; numeric cells
default to `0` when the column is missing and are otherwise given to
`Number`; the tariff, TOU and outdoor-temperature columns each try two
header aliases with `??`. -/
def shapeRow (r : CsvRow) : EnergyRow :=
  { homeId := jsTrimStr (cellStr (getCell r "Home ID"))
    date := jsTrimStr (cellStr (getCell r "Date"))
    time := jsTrimStr (cellStr (getCell r "Time"))
    appliance := jsTrimStr (cellStr (getCell r "Appliance Type"))
    kwh := cellNum (getCell r "Energy Consumption (kWh)")
    tou := jsTrimStr (cellStr ((getCell r "TOU Period").orElse (fun _ => getCell r "TOU period")))
    tariff := cellNum ((getCell r "Tariff ($/kWh)").orElse (fun _ => getCell r "Tariff"))
    outC := cellNum ((getCell r "Outdoor Temperature (C)").orElse
      (fun _ => getCell r "Outdoor Temperature (Â°C)"))
    inC := cellNum (getCell r "Indoor Temperature (C)") }

/-- Truthiness of an optional query parameter: `null` and the empty
string are falsy in the `if (homeId)` / `if (appliance)` guards. -/
def truthyParam : Option String → Bool
  | none => false
  | some s => s != ""

/-- Embedding of the energy GET handler body (route.ts lines 60-85):
shape every parsed row, then apply the optional `homeId` and
`appliance` filters. -/
def energyGET (rows : List CsvRow) (homeId appliance : Option String) : List EnergyRow :=
  let shaped := rows.map shapeRow
  let f1 := if truthyParam homeId then shaped.filter (fun r => r.homeId == homeId.getD "") else shaped
  if truthyParam appliance then f1.filter (fun r => r.appliance == appliance.getD "") else f1

/-! ## Coaching context builders and chat fallback handling -/

/-- One chat turn as held in component state.  The runtime role is kept
as a bare string: the TypeScript union type restricts it to "user" or
"assistant", and the defensive normalisation in coach-section.tsx
handles arbitrary strings. -/
structure ChatMsg where
  role : String
  content : String
deriving DecidableEq, Repr

/-- Model of JS `l.slice(-n)`: the last `n` elements (all of them when
the list is shorter). -/
def jsSliceLast (n : ℕ) (l : List ChatMsg) : List ChatMsg :=
  l.drop (l.length - n)

/-- Payload of the `/chat/energy-coach` POST (part_005 lines 78-82). -/
structure EnergyCoachPayload where
  message : String
  home_id : ℤ
  history : List ChatMsg
deriving DecidableEq, Repr

/-- Sanitising map of part_005 line 73:
`{ role: m.role, content: String(m.content ?? "") }` — the role passes
through unchanged and the content, already a string, is kept. -/
def sanitizeMsg (m : ChatMsg) : ChatMsg :=
  ⟨m.role, m.content⟩

/-- Embedding of the payload construction of `sendToCoach` in part_005
(lines 70-83): the latest text, the home id, and the sanitised history
truncated to its last 10 turns with `slice(-10)`. -/
def energyCoachPayload (homeId : ℤ) (history : List ChatMsg) (latest : String) :
    EnergyCoachPayload :=
  { message := latest
    home_id := homeId
    history := jsSliceLast 10 (history.map sanitizeMsg) }

/-- Role normalisation of coach-section.tsx line 70:
`m.role === "assistant" ? "assistant" : "user"`. -/
def normRole (r : String) : String :=
  if r = "assistant" then "assistant" else "user"

/-- Payload of the `/coach/chat` POST (coach-section.tsx lines 68-75):
the whole history with normalised roles, a persona tag, and an empty
context object — no home identifier and no truncation. -/
structure CoachChatPayload where
  messages : List ChatMsg
  persona : String
deriving DecidableEq, Repr

/-- Embedding of the payload construction of `sendToCoach` in
src/frontend/components/coach-section.tsx (lines 65-77). -/
def coachChatPayload (history : List ChatMsg) : CoachChatPayload :=
  { messages := history.map (fun m => ⟨normRole m.role, m.content⟩)
    persona := "eco" }

/-- Body of a coach HTTP response as the handler distinguishes it:
not JSON at all, or JSON whose reply field is a string (`some s`) or
missing/not a string (`none`). -/
inductive CoachBody where
  | nonJson
  | json (reply : Option String)
deriving DecidableEq, Repr

/-- Outcome of the coach fetch: the fetch itself threw, or a response
arrived with an ok flag and a body. -/
inductive CoachOutcome where
  | thrown
  | response (ok : Bool) (body : CoachBody)
deriving DecidableEq, Repr

/-- Fallback texts of the two chat handlers (identical strings in
part_005 lines 98-101 and coach-section.tsx lines 103-106). -/
def noReplyFallback : String := "Sorry—no reply received."

/-- Apology returned from the catch-all handler of `sendToCoach`. -/
def errorFallback : String := "Sorry—something went wrong sending that."

/-- Embedding of the response handling of `sendToCoach` (part_005
lines 85-102; the same control flow reads `data.message` in
coach-section.tsx lines 88-107): a thrown fetch or a non-ok status
lands in the catch with the error apology; an unparsable or
reply-less JSON body yields the empty string and then the no-reply
fallback; a string reply is trimmed and returned when non-empty. -/
def sendToCoachResult : CoachOutcome → String
  | .thrown => errorFallback
  | .response false _ => errorFallback
  | .response true .nonJson => noReplyFallback
  | .response true (.json none) => noReplyFallback
  | .response true (.json (some s)) =>
    if jsTrimStr s = "" then noReplyFallback else jsTrimStr s

/-! ## Concrete inputs used by witnesses and counterexamples -/

/-- Reading set of the specification scenario: kwh 1.0 at 06:00,
kwh 0.5 at 06:30 and kwh 2.0 at 18:00, all on one date. -/
def scenarioRows : List ApiRow :=
  [⟨"1", "6/15/23", "06:00", .fin 1⟩,
   ⟨"1", "6/15/23", "06:30", .fin (1/2)⟩,
   ⟨"1", "6/15/23", "18:00", .fin 2⟩]

/-- A reading whose kwh needs more than three decimal places. -/
def tinyRow : ApiRow := ⟨"1", "6/15/23", "06:00", .fin (1/10000)⟩

/-- A reading whose time string has a fractional hour component. -/
def fracRow : ApiRow := ⟨"1", "6/15/23", "6.5:00", .fin 1⟩

/-- A chat history of 15 distinct prior turns. -/
def turns15 : List ChatMsg := (List.range 15).map (fun i => ⟨"user", natToDec i⟩)

/-- A CSV row whose kwh cell is present but not numeric. -/
def badCsvRow : CsvRow :=
  [("Home ID", "7"), ("Date", "6/15/23"), ("Time", "06:00"),
   ("Energy Consumption (kWh)", "abc")]

/-- A CSV row with every numeric and most string columns missing. -/
def goodCsvRow : CsvRow := [("Date", "6/15/23")]

/-! ## Supporting lemmas -/

theorem getD_set_self (l : List ℚ) (i : ℕ) (x : ℚ) (h : i < l.length) :
    (l.set i x).getD i 0 = x := by
  induction l generalizing i with
  | nil => simp at h
  | cons a l ih =>
    cases i with
    | zero => simp [List.set, List.getD]
    | succ j =>
      simp only [List.set, List.getD, List.get?]
      exact ih j (by simpa using h)

theorem getD_set_other (l : List ℚ) (i j : ℕ) (x : ℚ) (h : j ≠ i) :
    (l.set i x).getD j 0 = l.getD j 0 := by
  induction l generalizing i j with
  | nil => simp [List.set]
  | cons a l ih =>
    cases i with
    | zero =>
      cases j with
      | zero => exact absurd rfl h
      | succ k => simp [List.set, List.getD]
    | succ i2 =>
      cases j with
      | zero => simp [List.set, List.getD]
      | succ k =>
        simp only [List.set, List.getD, List.get?]
        exact ih i2 k (fun hk => h (by simp [hk]))

theorem getD_replicate (n h : ℕ) : (List.replicate n (0 : ℚ)).getD h 0 = 0 := by
  induction n generalizing h with
  | zero => rfl
  | succ m ih =>
    cases h with
    | zero => rfl
    | succ k =>
      have : (List.replicate (m + 1) (0 : ℚ)).getD (k + 1) 0 =
          (List.replicate m (0 : ℚ)).getD k 0 := rfl
      rw [this, ih k]

/-- Hours computed by `hourFromTime` are always finite and lie in
`[0, 23]`: the `|| 0` removes NaN, `Math.max` removes `-Infinity` and
`Math.min` removes `Infinity`. -/
theorem hourFromTime_mem (t : String) :
    ∃ q : ℚ, hourFromTime t = .fin q ∧ 0 ≤ q ∧ q ≤ 23 := by
  unfold hourFromTime
  rcases jsNumber (beforeColon t) with q | _ | _ | _ <;>
    simp only [JSNum.orZero, JSNum.jsMax, JSNum.jsMin]
  · exact ⟨min 23 (max 0 q), rfl, le_min (by norm_num) (le_max_left 0 q), min_le_left 23 _⟩
  · exact ⟨min 23 (max 0 0), rfl, le_min (by norm_num) (le_max_left 0 0), min_le_left 23 _⟩
  · exact ⟨23, rfl, by norm_num, le_refl 23⟩
  · exact ⟨min 23 0, rfl, le_min (by norm_num) (le_refl 0), min_le_left 23 _⟩

theorem rowBucket_lt (r : ApiRow) (h : ℕ) (hb : rowBucket r = some h) : h < 24 := by
  obtain ⟨q, hq, h0, h23⟩ := hourFromTime_mem r.time
  unfold rowBucket at hb
  rw [hq] at hb
  simp only [bucketIndex?] at hb
  by_cases hc : (Int.floor q : ℚ) = q ∧ 0 ≤ q ∧ q ≤ 23
  · rw [if_pos hc] at hb
    obtain ⟨hfq, -, -⟩ := hc
    have hfle : Int.floor q ≤ 23 := by
      have : (Int.floor q : ℚ) ≤ 23 := by rw [hfq]; exact h23
      exact_mod_cast this
    have : h = (Int.floor q).toNat := (Option.some.inj hb).symm
    subst this
    omega
  · rw [if_neg hc] at hb
    exact absurd hb (by simp)

theorem applyRow_length (sums : List ℚ) (r : ApiRow) :
    (applyRow sums r).length = sums.length := by
  unfold applyRow
  cases rowBucket r <;> simp

theorem foldl_applyRow_length (rows : List ApiRow) (init : List ℚ) :
    (rows.foldl applyRow init).length = init.length := by
  induction rows generalizing init with
  | nil => rfl
  | cons r rows ih => rw [List.foldl_cons, ih, applyRow_length]

theorem foldl_applyRow_getD (rows : List ApiRow) (init : List ℚ)
    (hlen : init.length = 24) (h : ℕ) (hh : h < 24) :
    (rows.foldl applyRow init).getD h 0 = init.getD h 0 + rowsBucketSum rows h := by
  induction rows generalizing init with
  | nil => simp [rowsBucketSum]
  | cons r rows ih =>
    rw [List.foldl_cons]
    rcases hb : rowBucket r with - | i
    · have happ : applyRow init r = init := by unfold applyRow; rw [hb]
      rw [happ, ih init hlen]
      have : rowsBucketSum (r :: rows) h = rowsBucketSum rows h := by
        unfold rowsBucketSum
        rw [List.filter_cons_of_neg (by simp [hb])]
      rw [this]
    · have happ : applyRow init r = init.set i (init.getD i 0 + JSNum.finOr0 r.kwh) := by
        unfold applyRow; rw [hb]
      have hlen2 : (init.set i (init.getD i 0 + JSNum.finOr0 r.kwh)).length = 24 := by
        simpa using hlen
      rw [happ, ih _ hlen2]
      by_cases hih : i = h
      · subst hih
        rw [getD_set_self _ _ _ (by rw [hlen]; exact rowBucket_lt r i hb)]
        have : rowsBucketSum (r :: rows) i = JSNum.finOr0 r.kwh + rowsBucketSum rows i := by
          unfold rowsBucketSum
          rw [List.filter_cons_of_pos (by simp [hb])]
          simp
        rw [this]; ring
      · rw [getD_set_other _ _ _ _ (fun hx => hih hx.symm)]
        have : rowsBucketSum (r :: rows) h = rowsBucketSum rows h := by
          unfold rowsBucketSum
          rw [List.filter_cons_of_neg (by simp [hb, hih])]
        rw [this]

theorem mapWithIndex_length (f : ℕ → ℚ → HourPoint) (i : ℕ) (l : List ℚ) :
    (mapWithIndex f i l).length = l.length := by
  induction l generalizing i with
  | nil => rfl
  | cons v vs ih => simp [mapWithIndex, ih]

theorem mapWithIndex_get? (f : ℕ → ℚ → HourPoint) (i j : ℕ) (l : List ℚ) :
    (mapWithIndex f i l).get? j = (l.get? j).map (fun v => f (i + j) v) := by
  induction l generalizing i j with
  | nil => simp [mapWithIndex]
  | cons v vs ih =>
    cases j with
    | zero => simp [mapWithIndex]
    | succ k =>
      simp only [mapWithIndex, List.get?, ih (i + 1) k]
      have : i + 1 + k = i + (k + 1) := by omega
      rw [this]

theorem get?_eq_some_getD (l : List ℚ) (h : ℕ) (hh : h < l.length) :
    l.get? h = some (l.getD h 0) := by
  induction l generalizing h with
  | nil => simp at hh
  | cons a l ih =>
    cases h with
    | zero => simp [List.getD]
    | succ k =>
      simp only [List.get?, List.getD]
      exact ih k (by simpa using hh)

/-- Half-up rounding to 3 decimals moves a value by at most `1/2000`. -/
theorem jsToFixed3_close (q : ℚ) : |jsToFixed3 q - q| ≤ 1/2000 := by
  have key : ∀ x : ℚ, |round3half x - x| ≤ 1/2000 := by
    intro x
    unfold round3half
    have h1 : (Int.floor (x * 1000 + 1/2) : ℚ) ≤ x * 1000 + 1/2 := Int.floor_le _
    have h2 : x * 1000 + 1/2 < Int.floor (x * 1000 + 1/2) + 1 := Int.lt_floor_add_one _
    rw [abs_le]
    constructor <;> linarith
  unfold jsToFixed3
  by_cases hq : q < 0
  · rw [if_pos hq]
    have hrw : -(round3half (-q)) - q = -(round3half (-q) - (-q)) := by ring
    rw [hrw, abs_neg]
    exact key (-q)
  · rw [if_neg hq]
    exact key q

theorem bucketIndex?_nat (n : ℕ) (hn : n ≤ 23) : bucketIndex? (.fin n) = some n := by
  have hf : Int.floor ((n : ℚ)) = (n : ℤ) := Int.floor_natCast n
  simp only [bucketIndex?]
  rw [if_pos ⟨by rw [hf]; exact Int.cast_natCast n, by positivity, by exact_mod_cast hn⟩, hf]
  simp

theorem rowBucket_of_time (r : ApiRow) (n : ℕ) (hn : n ≤ 23)
    (ht : hourFromTime r.time = .fin n) : rowBucket r = some n := by
  unfold rowBucket
  rw [ht]
  exact bucketIndex?_nat n hn

theorem hourFromTime_0600 : hourFromTime "06:00" = .fin 6 := by
  simp +decide [hourFromTime, beforeColon, jsNumber, trimWs, parseUnsignedDec, digitsToNat,
    JSNum.orZero, JSNum.jsMax, JSNum.jsMin]

theorem hourFromTime_0630 : hourFromTime "06:30" = .fin 6 := by
  simp +decide [hourFromTime, beforeColon, jsNumber, trimWs, parseUnsignedDec, digitsToNat,
    JSNum.orZero, JSNum.jsMax, JSNum.jsMin]

theorem hourFromTime_1800 : hourFromTime "18:00" = .fin 18 := by
  simp +decide [hourFromTime, beforeColon, jsNumber, trimWs, parseUnsignedDec, digitsToNat,
    JSNum.orZero, JSNum.jsMax, JSNum.jsMin]

theorem loadDailyUsage_length (all : List ApiRow) (d : String) :
    (loadDailyUsageByHour all d).length = 24 := by
  by_cases he : all.isEmpty
  · simp only [loadDailyUsageByHour, if_pos he]
    simp
  · simp only [loadDailyUsageByHour, if_neg he]
    rw [mapWithIndex_length, foldl_applyRow_length]
    simp

theorem loadDailyUsage_get? (all : List ApiRow) (d : String) (h : ℕ) (hh : h < 24) :
    (loadDailyUsageByHour all d).get? h =
      some ⟨hourLabel h, jsToFixed3 (bucketSum all d h)⟩ := by
  by_cases he : all.isEmpty
  · have hall : all = [] := by
      cases all with
      | nil => rfl
      | cons a l => simp [List.isEmpty] at he
    subst hall
    simp only [loadDailyUsageByHour]
    rw [if_pos he, List.get?_map, List.get?_range hh]
    have h1 : bucketSum [] d h = 0 := by simp [bucketSum, rowsBucketSum]
    have h2 : jsToFixed3 0 = 0 := by norm_num [jsToFixed3, round3half]
    rw [h1, h2]
    rfl
  · simp only [loadDailyUsageByHour, if_neg he]
    rw [mapWithIndex_get?]
    have hlen : ((all.filter (fun r => r.date == d)).foldl applyRow
        (List.replicate 24 (0 : ℚ))).length = 24 := by
      rw [foldl_applyRow_length]; simp
    rw [get?_eq_some_getD _ h (by rw [hlen]; exact hh)]
    rw [foldl_applyRow_getD _ _ (by simp) h hh, getD_replicate]
    simp only [Option.map_some', Nat.zero_add, zero_add]
    rw [bucketSum]

/-! ## Claims -/

/-- C1 (amended): for every fetched row set and date, the hourly series
has exactly 24 points; the point for hour `h` carries the label of hour
`h` and the sum of the kwh of the readings of that date whose computed
hour is `h`, rounded to three decimal places by `toFixed(3)`; an hour
with no readings carries `0` (the empty sum rounds to `0`). -/
theorem hourly_series_buckets (all : List ApiRow) (d : String) :
    (loadDailyUsageByHour all d).length = 24 ∧
    ∀ h : ℕ, h < 24 →
      (loadDailyUsageByHour all d).get? h =
        some ⟨hourLabel h, jsToFixed3 (bucketSum all d h)⟩ :=
  ⟨loadDailyUsage_length all d, fun h hh => loadDailyUsage_get? all d h hh⟩

/-- C1 counterexample: the claim says the hour-6 point carries the sum
of the hour-6 kwh, but for a single reading of kwh `1/10000` at 06:00
the code returns `0` for hour 6 (the `toFixed(3)` rounding), and
`0 ≠ 1/10000`. -/
theorem hourly_series_rounding_cex :
    (loadDailyUsageByHour [tinyRow] "6/15/23").get? 6 = some ⟨"06:00", 0⟩ ∧
    bucketSum [tinyRow] "6/15/23" 6 = 1/10000 ∧ (0 : ℚ) ≠ 1/10000 := by
  have hbt : rowBucket tinyRow = some 6 :=
    rowBucket_of_time _ 6 (by norm_num) hourFromTime_0600
  have hd : [tinyRow].filter (fun r => r.date == "6/15/23") = [tinyRow] := by
    simp +decide [tinyRow]
  have hbs : bucketSum [tinyRow] "6/15/23" 6 = 1/10000 := by
    rw [bucketSum, hd, rowsBucketSum]
    rw [List.filter_cons_of_pos (by simp [hbt])]
    simp [tinyRow, JSNum.finOr0]
  refine ⟨?_, hbs, by norm_num⟩
  rw [loadDailyUsage_get? _ _ 6 (by norm_num), hbs]
  have h2 : jsToFixed3 (1/10000) = 0 := by norm_num [jsToFixed3, round3half]
  have h3 : hourLabel 6 = "06:00" := by decide
  rw [h2, h3]

/-- C1 witness: the specification scenario, evaluated through the
amended theorem — the hour-6 bucket is 1.5, the hour-18 bucket is 2.0,
and a bucket with no readings (hour 3) is 0. -/
theorem hourly_series_buckets_witness :
    (loadDailyUsageByHour scenarioRows "6/15/23").get? 6 = some ⟨"06:00", 3/2⟩ ∧
    (loadDailyUsageByHour scenarioRows "6/15/23").get? 18 = some ⟨"18:00", 2⟩ ∧
    (loadDailyUsageByHour scenarioRows "6/15/23").get? 3 = some ⟨"03:00", 0⟩ := by
  obtain ⟨-, hget⟩ := hourly_series_buckets scenarioRows "6/15/23"
  have hd : scenarioRows.filter (fun r => r.date == "6/15/23") = scenarioRows := by
    simp +decide [scenarioRows]
  have hb1 : ∀ k, rowBucket (⟨"1", "6/15/23", "06:00", k⟩ : ApiRow) = some 6 :=
    fun k => rowBucket_of_time _ 6 (by norm_num) hourFromTime_0600
  have hb2 : ∀ k, rowBucket (⟨"1", "6/15/23", "06:30", k⟩ : ApiRow) = some 6 :=
    fun k => rowBucket_of_time _ 6 (by norm_num) hourFromTime_0630
  have hb3 : ∀ k, rowBucket (⟨"1", "6/15/23", "18:00", k⟩ : ApiRow) = some 18 :=
    fun k => rowBucket_of_time _ 18 (by norm_num) hourFromTime_1800
  refine ⟨?_, ?_, ?_⟩
  · rw [hget 6 (by norm_num)]
    have hbs : bucketSum scenarioRows "6/15/23" 6 = 3/2 := by
      rw [bucketSum, hd, scenarioRows, rowsBucketSum]
      rw [List.filter_cons_of_pos (by simp [hb1]), List.filter_cons_of_pos (by simp [hb2]),
        List.filter_cons_of_neg (by simp [hb3])]
      simp [JSNum.finOr0]
      norm_num
    have h2 : jsToFixed3 (3/2) = 3/2 := by norm_num [jsToFixed3, round3half]
    have h3 : hourLabel 6 = "06:00" := by decide
    rw [hbs, h2, h3]
  · rw [hget 18 (by norm_num)]
    have hbs : bucketSum scenarioRows "6/15/23" 18 = 2 := by
      rw [bucketSum, hd, scenarioRows, rowsBucketSum]
      rw [List.filter_cons_of_neg (by simp [hb1]), List.filter_cons_of_neg (by simp [hb2]),
        List.filter_cons_of_pos (by simp [hb3])]
      simp [JSNum.finOr0]
    have h2 : jsToFixed3 2 = 2 := by norm_num [jsToFixed3, round3half]
    have h3 : hourLabel 18 = "18:00" := by decide
    rw [hbs, h2, h3]
  · rw [hget 3 (by norm_num)]
    have hbs : bucketSum scenarioRows "6/15/23" 3 = 0 := by
      rw [bucketSum, hd, scenarioRows, rowsBucketSum]
      rw [List.filter_cons_of_neg (by simp [hb1]), List.filter_cons_of_neg (by simp [hb2]),
        List.filter_cons_of_neg (by simp [hb3])]
      simp
    have h2 : jsToFixed3 0 = 0 := by norm_num [jsToFixed3, round3half]
    have h3 : hourLabel 3 = "03:00" := by decide
    rw [hbs, h2, h3]

theorem sum_rowsBucketSum (rows : List ApiRow)
    (hint : ∀ r ∈ rows, (rowBucket r).isSome) :
    (∑ h ∈ Finset.range 24, rowsBucketSum rows h) =
      (rows.map (fun r => JSNum.finOr0 r.kwh)).sum := by
  induction rows with
  | nil => simp [rowsBucketSum]
  | cons r rows ih =>
    have hr : (rowBucket r).isSome := hint r (by simp)
    obtain ⟨i, hi⟩ := Option.isSome_iff_exists.mp hr
    have hi24 : i < 24 := rowBucket_lt r i hi
    have hstep : ∀ h, rowsBucketSum (r :: rows) h =
        (if i = h then JSNum.finOr0 r.kwh else 0) + rowsBucketSum rows h := by
      intro h
      by_cases hih : i = h
      · subst hih
        unfold rowsBucketSum
        rw [List.filter_cons_of_pos (by simp [hi])]
        simp
      · unfold rowsBucketSum
        rw [List.filter_cons_of_neg (by simp [hi, hih])]
        simp [hih]
    calc (∑ h ∈ Finset.range 24, rowsBucketSum (r :: rows) h)
        = ∑ h ∈ Finset.range 24,
            ((if i = h then JSNum.finOr0 r.kwh else 0) + rowsBucketSum rows h) :=
          Finset.sum_congr rfl (fun h _ => hstep h)
      _ = (∑ h ∈ Finset.range 24, if i = h then JSNum.finOr0 r.kwh else 0) +
            ∑ h ∈ Finset.range 24, rowsBucketSum rows h := Finset.sum_add_distrib
      _ = JSNum.finOr0 r.kwh + (rows.map (fun r => JSNum.finOr0 r.kwh)).sum := by
          rw [Finset.sum_ite_eq (Finset.range 24) i (fun _ => JSNum.finOr0 r.kwh),
            if_pos (Finset.mem_range.mpr hi24), ih (fun x hx => hint x (by simp [hx]))]
      _ = ((r :: rows).map (fun r => JSNum.finOr0 r.kwh)).sum := by simp

theorem mapWithIndex_kwh (i : ℕ) (l : List ℚ) :
    (mapWithIndex (fun h v => ⟨hourLabel h, jsToFixed3 v⟩) i l).map HourPoint.kwh =
      l.map jsToFixed3 := by
  induction l generalizing i with
  | nil => rfl
  | cons v vs ih => simp [mapWithIndex, ih]

theorem map_sum_eq_sum_range (g : ℚ → ℚ) (l : List ℚ) :
    (l.map g).sum = ∑ h ∈ Finset.range l.length, g (l.getD h 0) := by
  induction l with
  | nil => simp
  | cons a l ih =>
    rw [List.map_cons, List.sum_cons, ih, List.length_cons, Finset.sum_range_succ']
    simp only [List.getD_cons_succ, List.getD_cons_zero]
    ring

theorem loadDailyUsage_kwh_sum (all : List ApiRow) (d : String) :
    ((loadDailyUsageByHour all d).map HourPoint.kwh).sum =
      ∑ h ∈ Finset.range 24, jsToFixed3 (bucketSum all d h) := by
  have hz : jsToFixed3 0 = 0 := by norm_num [jsToFixed3, round3half]
  by_cases he : all.isEmpty
  · have hall : all = [] := by
      cases all with
      | nil => rfl
      | cons a l => simp [List.isEmpty] at he
    subst hall
    simp only [loadDailyUsageByHour]
    rw [if_pos he, List.map_map]
    have hconst : (HourPoint.kwh ∘ fun h => (⟨hourLabel h, 0⟩ : HourPoint)) =
        fun _ => (0 : ℚ) := rfl
    rw [hconst]
    have hlz : ∀ l : List ℕ, ((l.map (fun _ => (0 : ℚ))).sum) = 0 := by
      intro l
      induction l with
      | nil => rfl
      | cons a l ihl => simp [ihl]
    rw [hlz]
    have : ∀ h ∈ Finset.range 24, jsToFixed3 (bucketSum [] d h) = 0 := by
      intro h _
      have : bucketSum [] d h = 0 := by simp [bucketSum, rowsBucketSum]
      rw [this, hz]
    rw [Finset.sum_congr rfl this]
    simp
  · simp only [loadDailyUsageByHour]
    rw [if_neg he, mapWithIndex_kwh, map_sum_eq_sum_range]
    have hlen : ((all.filter (fun r => r.date == d)).foldl applyRow
        (List.replicate 24 (0 : ℚ))).length = 24 := by
      rw [foldl_applyRow_length]; simp
    rw [hlen]
    refine Finset.sum_congr rfl (fun h hh => ?_)
    rw [foldl_applyRow_getD _ _ (by simp) h (Finset.mem_range.mp hh), getD_replicate,
      zero_add, bucketSum]

/-- C9 (amended): for every fetched row set and date whose readings of
that date all have an integral (array-indexable) hour value, the 24
pre-rounding bucket sums partition the day total exactly, and the sum
of the returned (3-decimal-rounded) series differs from the day total
by at most `24 × 1/2000 = 3/250`. -/
theorem hourly_sum_equals_today (all : List ApiRow) (d : String)
    (hint : ∀ r ∈ all.filter (fun r => r.date == d), (rowBucket r).isSome) :
    (∑ h ∈ Finset.range 24, bucketSum all d h) = todayUsageKwh all d ∧
    |((loadDailyUsageByHour all d).map HourPoint.kwh).sum - todayUsageKwh all d| ≤ 3/250 := by
  have h1 : (∑ h ∈ Finset.range 24, bucketSum all d h) = todayUsageKwh all d := by
    simp only [bucketSum]
    rw [sum_rowsBucketSum _ hint]
    rfl
  refine ⟨h1, ?_⟩
  rw [loadDailyUsage_kwh_sum, ← h1, ← Finset.sum_sub_distrib]
  calc |∑ h ∈ Finset.range 24, (jsToFixed3 (bucketSum all d h) - bucketSum all d h)|
      ≤ ∑ h ∈ Finset.range 24, |jsToFixed3 (bucketSum all d h) - bucketSum all d h| :=
        Finset.abs_sum_le_sum_abs _ _
    _ ≤ ∑ _h ∈ Finset.range 24, (1/2000 : ℚ) :=
        Finset.sum_le_sum (fun h _ => jsToFixed3_close _)
    _ = 3/250 := by
        rw [Finset.sum_const, Finset.card_range, nsmul_eq_mul]
        norm_num

theorem hourFromTime_65 : hourFromTime "6.5:00" = .fin (13/2) := by
  simp +decide [hourFromTime, beforeColon, jsNumber, trimWs, parseUnsignedDec, digitsToNat,
    JSNum.orZero, JSNum.jsMax, JSNum.jsMin]
  norm_num

theorem rowBucket_fracRow : rowBucket fracRow = none := by
  simp only [rowBucket, fracRow]
  rw [hourFromTime_65]
  simp only [bucketIndex?]
  rw [if_neg]
  rintro ⟨hfl, -, -⟩
  have : Int.floor ((13 : ℚ)/2) = 6 := by norm_num
  rw [this] at hfl
  norm_num at hfl

theorem fracRow_filter : [fracRow].filter (fun r => r.date == "6/15/23") = [fracRow] := by
  simp +decide [fracRow]

theorem fracRow_series_sum_zero :
    ((loadDailyUsageByHour [fracRow] "6/15/23").map HourPoint.kwh).sum = 0 := by
  rw [loadDailyUsage_kwh_sum]
  have hb : ∀ h ∈ Finset.range 24, jsToFixed3 (bucketSum [fracRow] "6/15/23" h) = 0 := by
    intro h _
    have hbs : bucketSum [fracRow] "6/15/23" h = 0 := by
      rw [bucketSum, fracRow_filter, rowsBucketSum,
        List.filter_cons_of_neg (by simp [rowBucket_fracRow])]
      simp
    rw [hbs]
    norm_num [jsToFixed3, round3half]
  rw [Finset.sum_congr rfl hb]
  simp

theorem fracRow_today_one : todayUsageKwh [fracRow] "6/15/23" = 1 := by
  rw [todayUsageKwh, fracRow_filter]
  simp [fracRow, JSNum.finOr0]

/-- C9 counterexample: for a reading at time "6.5:00" with kwh 1
(fractional hour: the bucket write lands outside the 24 array slots)
the returned series sums to 0 while the day total is 1 — the series
total does not equal `today_usage_kwh` under any small tolerance. -/
theorem hourly_sum_cex :
    ((loadDailyUsageByHour [fracRow] "6/15/23").map HourPoint.kwh).sum = 0 ∧
    todayUsageKwh [fracRow] "6/15/23" = 1 ∧
    ¬ (((loadDailyUsageByHour [fracRow] "6/15/23").map HourPoint.kwh).sum =
        todayUsageKwh [fracRow] "6/15/23") := by
  refine ⟨fracRow_series_sum_zero, fracRow_today_one, ?_⟩
  rw [fracRow_series_sum_zero, fracRow_today_one]
  norm_num

/-- C9 witness: the specification scenario discharges the
integral-hours hypothesis and the amended theorem applies. -/
theorem hourly_sum_equals_today_witness :
    (∑ h ∈ Finset.range 24, bucketSum scenarioRows "6/15/23" h) =
      todayUsageKwh scenarioRows "6/15/23" ∧
    |((loadDailyUsageByHour scenarioRows "6/15/23").map HourPoint.kwh).sum -
      todayUsageKwh scenarioRows "6/15/23"| ≤ 3/250 :=
  hourly_sum_equals_today scenarioRows "6/15/23" (by
    have hd : scenarioRows.filter (fun r => r.date == "6/15/23") = scenarioRows := by
      simp +decide [scenarioRows]
    rw [hd]
    intro r hr
    simp only [scenarioRows, List.mem_cons, List.not_mem_nil, or_false] at hr
    rcases hr with h | h | h
    · rw [h, rowBucket_of_time _ 6 (by norm_num) hourFromTime_0600]; rfl
    · rw [h, rowBucket_of_time _ 6 (by norm_num) hourFromTime_0630]; rfl
    · rw [h, rowBucket_of_time _ 18 (by norm_num) hourFromTime_1800]; rfl)

/-- C10 (amended): the bucketing loop is total — an hour string that
parses to NaN is bucketed into hour 0; a non-finite kwh contributes 0;
a row whose computed hour is an array index contributes to exactly one
of the 24 buckets, while a row with a fractional hour value updates no
bucket; and one loop iteration always preserves the 24-slot shape. -/
theorem bucketing_total (r : ApiRow) (sums : List ℚ) :
    (jsNumber (beforeColon r.time) = .nan → rowBucket r = some 0) ∧
    (JSNum.isFin r.kwh = false → JSNum.finOr0 r.kwh = 0) ∧
    ((rowBucket r).isSome → ∃! h : ℕ, h < 24 ∧ rowBucket r = some h) ∧
    (rowBucket r = none → applyRow sums r = sums) ∧
    (applyRow sums r).length = sums.length := by
  refine ⟨?_, ?_, ?_, ?_, applyRow_length sums r⟩
  · intro hnan
    unfold rowBucket hourFromTime
    rw [hnan]
    simp only [JSNum.orZero, JSNum.jsMax, JSNum.jsMin]
    have h0 : min (23 : ℚ) (max 0 0) = ((0 : ℕ) : ℚ) := by norm_num
    rw [h0]
    exact bucketIndex?_nat 0 (by norm_num)
  · intro hnf
    cases hk : r.kwh with
    | fin q => rw [hk] at hnf; simp [JSNum.isFin] at hnf
    | nan => simp [JSNum.finOr0]
    | inf => simp [JSNum.finOr0]
    | negInf => simp [JSNum.finOr0]
  · intro hs
    obtain ⟨i, hi⟩ := Option.isSome_iff_exists.mp hs
    refine ⟨i, ⟨rowBucket_lt r i hi, hi⟩, ?_⟩
    intro j hj
    have := hj.2
    rw [hi] at this
    exact (Option.some.inj this).symm
  · intro hnone
    unfold applyRow
    rw [hnone]

/-- C10 counterexample: the claim says every row contributes to exactly
one of the 24 buckets, but the reading at time "6.5:00" (clamped hour
6.5, a fractional array key) is bucketed nowhere: the returned series
stays all-zero although the reading carries kwh 1. -/
theorem bucketing_total_cex :
    rowBucket fracRow = none ∧
    ((loadDailyUsageByHour [fracRow] "6/15/23").map HourPoint.kwh).sum = 0 ∧
    JSNum.finOr0 fracRow.kwh = 1 :=
  ⟨rowBucket_fracRow, fracRow_series_sum_zero, rfl⟩

/-- C10 witness: a row with unparseable hour string and NaN kwh lands
in bucket 0 with contribution 0, and the loop preserves shape. -/
theorem bucketing_total_witness :
    rowBucket (⟨"1", "6/15/23", "xx:00", .nan⟩ : ApiRow) = some 0 ∧
    JSNum.finOr0 JSNum.nan = 0 ∧
    (∃! h : ℕ, h < 24 ∧ rowBucket (⟨"1", "6/15/23", "xx:00", .nan⟩ : ApiRow) = some h) ∧
    (applyRow [0, 0] ⟨"1", "6/15/23", "xx:00", .nan⟩).length = 2 := by
  obtain ⟨c1, c2, c3, -, c5⟩ := bucketing_total ⟨"1", "6/15/23", "xx:00", .nan⟩ [0, 0]
  have hnan : jsNumber (beforeColon "xx:00") = .nan := by
    simp +decide [beforeColon, jsNumber, trimWs, parseUnsignedDec]
  have h1 := c1 hnan
  exact ⟨h1, c2 rfl, c3 (by rw [h1]; rfl), by rw [c5]; rfl⟩

theorem classifyDevice_none_fin (q : ℚ) :
    classifyDevice none (.fin q) =
      (if q ≤ 24 then DeviceStatus.online else if q ≤ 72 then .unknown else .offline) := by
  simp only [classifyDevice, JSNum.jsLe]
  by_cases h1 : q ≤ 24 <;> by_cases h2 : q ≤ 72 <;> simp [h1, h2]

/-- C2: for a device record without an explicit boolean flag, the
status is a pure function of the last-seen age in hours: at most 24
(the 24h boundary included) is online, over 24 and at most 72 (the 72h
boundary included) is unknown, over 72 is offline, and a missing (or
empty, hence falsy) last-seen value is always offline. -/
theorem device_status_age (parseDate : String → Option ℚ) (now t : ℚ) (d : RawDevice)
    (hflag : d.is_online = none) :
    ((d.last_seen_iso = none ∨ d.last_seen_iso = some "") →
      (deviceOf parseDate now d).status = .offline) ∧
    (∀ s, d.last_seen_iso = some s → s ≠ "" → parseDate s = some t →
      (((now - t) / 3600000 ≤ 24 → (deviceOf parseDate now d).status = .online) ∧
       (24 < (now - t) / 3600000 → (now - t) / 3600000 ≤ 72 →
         (deviceOf parseDate now d).status = .unknown) ∧
       (72 < (now - t) / 3600000 → (deviceOf parseDate now d).status = .offline))) := by
  have hstat : (deviceOf parseDate now d).status =
      classifyDevice d.is_online (hoursSinceOf parseDate now (lastSeenOf d)) := rfl
  constructor
  · intro habs
    have hls : lastSeenOf d = none := by
      rcases habs with h | h <;> simp [lastSeenOf, h]
    rw [hstat, hflag, hls]
    rfl
  · intro s hs hne hp
    have hls : lastSeenOf d = some s := by simp [lastSeenOf, hs, hne]
    have hhs : hoursSinceOf parseDate now (lastSeenOf d) = .fin ((now - t) / 3600000) := by
      rw [hls]; simp [hoursSinceOf, hp]
    rw [hstat, hflag, hhs, classifyDevice_none_fin]
    refine ⟨fun hle => by rw [if_pos hle], fun hgt hle => ?_, fun hgt => ?_⟩
    · rw [if_neg (by linarith), if_pos hle]
    · rw [if_neg (by linarith), if_neg (by linarith)]

/-- C2 witness: at age exactly 24 hours (now at epoch-ms 86400000,
last seen parsed to 0) the status is online, and a record with no
last-seen value is offline. -/
theorem device_status_age_witness :
    (deviceOf (fun _ => some 0) 86400000
      ⟨"fridge", none, some "2023-01-01", none, none⟩).status = .online ∧
    (deviceOf (fun _ => some 0) 86400000
      ⟨"tv", none, none, none, none⟩).status = .offline := by
  obtain ⟨-, h2⟩ := device_status_age (fun _ => some 0) 86400000 0
    ⟨"fridge", none, some "2023-01-01", none, none⟩ rfl
  obtain ⟨habs, -⟩ := device_status_age (fun _ => some 0) 86400000 0
    ⟨"tv", none, none, none, none⟩ rfl
  refine ⟨?_, habs (Or.inl rfl)⟩
  exact (h2 "2023-01-01" rfl (by decide) rfl).1 (by norm_num)

/-- C3: an explicit boolean `is_online` flag decides the status alone
(true is online, false is offline, for every clock value and date
parser), and the source field is plug exactly when the record carries
the string "plug", defaulting to app otherwise. -/
theorem device_status_flag (parseDate : String → Option ℚ) (now : ℚ) (d : RawDevice) :
    (∀ b, d.is_online = some b →
      (deviceOf parseDate now d).status = (if b then DeviceStatus.online else .offline)) ∧
    ((deviceOf parseDate now d).source = DeviceSource.plug ↔ d.source = some "plug") := by
  constructor
  · intro b hb
    have hstat : (deviceOf parseDate now d).status =
        classifyDevice d.is_online (hoursSinceOf parseDate now (lastSeenOf d)) := rfl
    rw [hstat, hb]
    rfl
  · have hsrc : (deviceOf parseDate now d).source =
        (if d.source == some "plug" then DeviceSource.plug else .app) := rfl
    rw [hsrc]
    by_cases h : d.source = some "plug"
    · simp [h]
    · rw [if_neg (by simp [h])]
      simp [h]

/-- C3 witness: a record with `is_online = true` and source "plug"
classifies online from the flag and keeps the plug source. -/
theorem device_status_flag_witness :
    (deviceOf (fun _ => none) 0
      ⟨"heater", some true, none, some "plug", none⟩).status = .online ∧
    (deviceOf (fun _ => none) 0
      ⟨"heater", some true, none, some "plug", none⟩).source = .plug := by
  obtain ⟨hb, hs⟩ := device_status_flag (fun _ => none) 0
    ⟨"heater", some true, none, some "plug", none⟩
  exact ⟨by rw [hb true rfl]; rfl, hs.mpr rfl⟩

/-- C7: a home with zero readings yields a well-formed series of 24
points each carrying kwh 0, and the device list of an absent or empty
backend array is the empty list; both embedded operations are total
functions, so no exception path exists. -/
theorem empty_inputs_wellformed (d : String) (parseDate : String → Option ℚ) (now : ℚ) :
    (loadDailyUsageByHour [] d).length = 24 ∧
    (∀ h : ℕ, h < 24 → (loadDailyUsageByHour [] d).get? h = some ⟨hourLabel h, 0⟩) ∧
    getDevices parseDate now none = [] ∧
    getDevices parseDate now (some []) = [] := by
  refine ⟨loadDailyUsage_length [] d, ?_, rfl, rfl⟩
  intro h hh
  rw [loadDailyUsage_get? [] d h hh]
  have h1 : bucketSum [] d h = 0 := by simp [bucketSum, rowsBucketSum]
  have h2 : jsToFixed3 0 = 0 := by norm_num [jsToFixed3, round3half]
  rw [h1, h2]

/-- C7 witness: the empty-input theorem applied at a concrete date,
hour 0 and a concrete device fetch. -/
theorem empty_inputs_wellformed_witness :
    (loadDailyUsageByHour [] "1/1/23").length = 24 ∧
    (loadDailyUsageByHour [] "1/1/23").get? 0 = some ⟨"00:00", 0⟩ ∧
    getDevices (fun _ => none) 0 none = [] := by
  obtain ⟨hl, hg, hd, -⟩ := empty_inputs_wellformed "1/1/23" (fun _ => none) 0
  refine ⟨hl, ?_, hd⟩
  rw [hg 0 (by norm_num)]
  have : hourLabel 0 = "00:00" := by decide
  rw [this]

theorem sanitize_map (history : List ChatMsg) : history.map sanitizeMsg = history := by
  have h : sanitizeMsg = id := funext (fun m => rfl)
  rw [h, List.map_id]

/-- C4 (amended): the energy-coach submission path (part_005) sends
exactly the most recent 10 turns — all turns when there are at most
10 — as the suffix of the sanitised history, in original order, along
with the home identifier and the latest text; the coach-chat submission
path (components/coach-section.tsx) sends the whole history, one
message per turn, and its payload carries no home identifier field. -/
theorem coach_context_truncation (homeId : ℤ) (history : List ChatMsg) (latest : String) :
    (energyCoachPayload homeId history latest).history =
      history.drop (history.length - 10) ∧
    (10 ≤ history.length → (energyCoachPayload homeId history latest).history.length = 10) ∧
    (history.length ≤ 10 → (energyCoachPayload homeId history latest).history = history) ∧
    (energyCoachPayload homeId history latest).history <:+ history ∧
    (energyCoachPayload homeId history latest).home_id = homeId ∧
    (energyCoachPayload homeId history latest).message = latest ∧
    (coachChatPayload history).messages.length = history.length := by
  have hmap : (energyCoachPayload homeId history latest).history =
      history.drop (history.length - 10) := by
    simp [energyCoachPayload, jsSliceLast, sanitize_map]
  refine ⟨hmap, ?_, ?_, ?_, rfl, rfl, by simp [coachChatPayload]⟩
  · intro hlen
    rw [hmap, List.length_drop]
    omega
  · intro hlen
    rw [hmap, Nat.sub_eq_zero_of_le hlen, List.drop_zero]
  · rw [hmap]
    exact List.drop_suffix _ _

/-- C4 counterexample: a 15-turn history submitted through the
coach-chat path is sent whole — 15 messages, not the most recent 10
(and that payload has no home identifier field at all). -/
theorem coach_context_truncation_cex :
    (coachChatPayload turns15).messages.length = 15 ∧ (15 : ℕ) ≠ 10 := by
  constructor
  · simp [coachChatPayload, turns15]
  · norm_num

/-- C4 witness: for the 15-turn history, the energy-coach payload is
exactly the last 10 turns in order, with the home identifier. -/
theorem coach_context_truncation_witness :
    (energyCoachPayload 1 turns15 "q").history = turns15.drop 5 ∧
    (energyCoachPayload 1 turns15 "q").history.length = 10 ∧
    (energyCoachPayload 1 turns15 "q").home_id = 1 := by
  obtain ⟨h1, h2, -, -, h5, -, -⟩ := coach_context_truncation 1 turns15 "q"
  refine ⟨?_, h2 (by simp [turns15]), h5⟩
  rw [h1]
  have hlen : turns15.length - 10 = 5 := by simp [turns15]
  rw [hlen]

/-- C5: every message of the coach-chat context carries role "user" or
"assistant" and a role that is neither is normalised to "user"; the
energy-coach context passes roles through, so its messages stay
two-valued whenever the input history is (which the typed component
state guarantees). -/
theorem coach_roles_normalized (history : List ChatMsg) (m : ChatMsg)
    (homeId : ℤ) (latest : String) :
    (∀ mm ∈ (coachChatPayload history).messages,
      mm.role = "user" ∨ mm.role = "assistant") ∧
    (m.role ≠ "user" → m.role ≠ "assistant" → normRole m.role = "user") ∧
    ((∀ mm ∈ history, mm.role = "user" ∨ mm.role = "assistant") →
      ∀ mm ∈ (energyCoachPayload homeId history latest).history,
        mm.role = "user" ∨ mm.role = "assistant") := by
  refine ⟨?_, ?_, ?_⟩
  · intro mm hmm
    simp only [coachChatPayload, List.mem_map] at hmm
    obtain ⟨x, -, hx⟩ := hmm
    rw [← hx]
    simp only [normRole]
    by_cases h : x.role = "assistant" <;> simp [h]
  · intro h1 h2
    simp only [normRole]
    rw [if_neg h2]
  · intro hall mm hmm
    refine hall mm ?_
    have hsuf : (energyCoachPayload homeId history latest).history <:+ history := by
      have : (energyCoachPayload homeId history latest).history <:+
          history.map sanitizeMsg := List.drop_suffix _ _
      rwa [sanitize_map] at this
    exact hsuf.subset hmm

/-- C5 witness: a message with the foreign role "system" is sent as
"user" by the coach-chat context builder. -/
theorem coach_roles_normalized_witness :
    normRole "system" = "user" ∧
    (coachChatPayload [⟨"system", "x"⟩]).messages = [⟨"user", "x"⟩] := by
  obtain ⟨-, h2, -⟩ := coach_roles_normalized [⟨"system", "x"⟩] ⟨"system", "x"⟩ 1 ""
  refine ⟨h2 (by decide) (by decide), ?_⟩
  simp [coachChatPayload, normRole]

/-- C6 (amended): the row shaping is total and row-independent — no
row is dropped (the output is exactly the shaped image of the input,
filtered only by the optional homeId/appliance parameters), a missing
numeric column yields 0 and a missing string column yields the empty
string; but a cell that is present and non-numeric makes the numeric
field NaN (the `Number` conversion), not 0. -/
theorem csv_shaping (rows : List CsvRow) (hid : String) (r : CsvRow) (s : String) :
    energyGET rows none none = rows.map shapeRow ∧
    (hid ≠ "" → energyGET rows (some hid) none =
      (rows.map shapeRow).filter (fun e => e.homeId == hid)) ∧
    (getCell r "Energy Consumption (kWh)" = none → (shapeRow r).kwh = .fin 0) ∧
    (getCell r "Tariff ($/kWh)" = none → getCell r "Tariff" = none →
      (shapeRow r).tariff = .fin 0) ∧
    (getCell r "Home ID" = none → (shapeRow r).homeId = "") ∧
    (getCell r "Energy Consumption (kWh)" = some s → (shapeRow r).kwh = jsNumber s) := by
  refine ⟨?_, ?_, ?_, ?_, ?_, ?_⟩
  · simp [energyGET, truthyParam]
  · intro hne
    simp [energyGET, truthyParam, hne]
  · intro h
    simp [shapeRow, cellNum, h]
  · intro h1 h2
    simp [shapeRow, cellNum, Option.orElse, h1, h2]
  · intro h
    simp only [shapeRow, cellStr, h, Option.getD]
    decide
  · intro h
    simp [shapeRow, cellNum, h]

/-- C6 counterexample: a present but non-numeric kwh cell ("abc")
yields NaN, not 0 — though the row itself is still kept. -/
theorem csv_shaping_cex :
    (shapeRow badCsvRow).kwh = JSNum.nan ∧
    JSNum.nan ≠ JSNum.fin 0 ∧
    energyGET [badCsvRow] none none = [shapeRow badCsvRow] := by
  refine ⟨?_, by decide, by simp [energyGET, truthyParam]⟩
  simp +decide [shapeRow, getCell, cellNum, jsNumber, trimWs, parseUnsignedDec, badCsvRow]

/-- C6 witness: a row with all numeric columns missing shapes to
zeroed numeric fields and an empty home id, and the homeId filter
semantics applies at a concrete parameter. -/
theorem csv_shaping_witness :
    (shapeRow goodCsvRow).kwh = .fin 0 ∧
    (shapeRow goodCsvRow).tariff = .fin 0 ∧
    (shapeRow goodCsvRow).homeId = "" ∧
    energyGET [goodCsvRow] (some "7") none =
      ([goodCsvRow].map shapeRow).filter (fun e => e.homeId == "7") := by
  obtain ⟨-, h2, h3, h4, h5, -⟩ := csv_shaping [goodCsvRow] "7" goodCsvRow ""
  exact ⟨h3 (by decide), h4 (by decide) (by decide), h5 (by decide), h2 (by decide)⟩

/-- C8: every chat turn resolves to non-empty text — a thrown fetch or
non-ok status yields the error apology, a non-JSON body or a missing
or blank reply yields the no-reply fallback, and a reply with visible
text is returned trimmed. -/
theorem chat_reply_total :
    (∀ o : CoachOutcome, sendToCoachResult o ≠ "") ∧
    sendToCoachResult .thrown = errorFallback ∧
    (∀ b, sendToCoachResult (.response false b) = errorFallback) ∧
    sendToCoachResult (.response true .nonJson) = noReplyFallback ∧
    sendToCoachResult (.response true (.json none)) = noReplyFallback ∧
    (∀ s, jsTrimStr s = "" →
      sendToCoachResult (.response true (.json (some s))) = noReplyFallback) ∧
    (∀ s, jsTrimStr s ≠ "" →
      sendToCoachResult (.response true (.json (some s))) = jsTrimStr s) := by
  have hne1 : errorFallback ≠ "" := by decide
  have hne2 : noReplyFallback ≠ "" := by decide
  refine ⟨?_, rfl, fun b => rfl, rfl, rfl, ?_, ?_⟩
  · intro o
    rcases o with - | ⟨ok, b⟩
    · exact hne1
    · cases ok
      · exact hne1
      · rcases b with - | r
        · exact hne2
        · rcases r with - | s
          · exact hne2
          · simp only [sendToCoachResult]
            by_cases h : jsTrimStr s = ""
            · rw [if_pos h]; exact hne2
            · rw [if_neg h]; exact h
  · intro s h
    simp only [sendToCoachResult]
    rw [if_pos h]
  · intro s h
    simp only [sendToCoachResult]
    rw [if_neg h]

/-- C8 witness: a padded reply is returned trimmed, a whitespace-only
reply falls back to the no-reply text, and a thrown fetch still yields
non-empty text. -/
theorem chat_reply_total_witness :
    sendToCoachResult (.response true (.json (some "  tip  "))) = "tip" ∧
    sendToCoachResult (.response true (.json (some "   "))) = noReplyFallback ∧
    sendToCoachResult .thrown ≠ "" := by
  obtain ⟨h1, -, -, -, -, h6, h7⟩ := chat_reply_total
  refine ⟨?_, h6 "   " (by decide), h1 .thrown⟩
  rw [h7 "  tip  " (by decide)]
  decide
